import Mathlib

/-!
Verification development for `prepper.py`, a tagged-CSV time-series
normaliser.  The Python source is embedded shallowly: lists stay lists,
`datetime` objects become the `Timestamp` structure below (second
resolution; `normalise` zeroes minutes, seconds and microseconds before
the roughening engine ever runs, and no format string prints below the
hour), Python `dict` insertion becomes an order-preserving association
list with in-place value update, and fallible code returns
`Option`/`Except`.
-/

namespace Prepper

/-- A calendar point, mirroring the fields of `datetime` that the program
reads or writes: year, month, day, hour, minute, second. -/
structure Timestamp where
  year : Nat
  month : Nat
  day : Nat
  hour : Nat
  minute : Nat
  second : Nat
deriving DecidableEq, Repr

/-- `d.replace(hour=h)` -/
def Timestamp.replaceHour (t : Timestamp) (h : Nat) : Timestamp :=
  Timestamp.mk t.year t.month t.day h t.minute t.second

/-- `d.replace(day=n)` -/
def Timestamp.replaceDay (t : Timestamp) (n : Nat) : Timestamp :=
  Timestamp.mk t.year t.month n t.hour t.minute t.second

/-- `d.replace(month=m)` -/
def Timestamp.replaceMonth (t : Timestamp) (m : Nat) : Timestamp :=
  Timestamp.mk t.year m t.day t.hour t.minute t.second

/-- Insertion into a Python `dict`, viewed as an ordered association list:
an existing key keeps its position and gets the new value, a new key is
appended at the end. -/
def dictInsert {α β : Type} [DecidableEq α] : List (α × β) → α → β → List (α × β)
  | [], k, v => [(k, v)]
  | (k', v') :: rest, k, v =>
    if k' = k then (k', v) :: rest else (k', v') :: dictInsert rest k v

/-- The Python `dict` built by the comprehension `{d: v for d, v in ps}`:
keys appear in order of first insertion, and each key holds the value of
its last occurrence. -/
def dictOfPairs {α β : Type} [DecidableEq α] (ps : List (α × β)) : List (α × β) :=
  ps.foldl (fun acc p => dictInsert acc p.1 p.2) []

/-- `generic_roughen` (prepper.py:104-107).  The source keys the dict by
the `isoformat()` string of each (already truncated) datetime and parses
the keys back with `fromisoformat`; since `isoformat` is injective on
datetimes and the two are mutually inverse there, keying by the timestamp
value itself is equivalent. -/
def generic_roughen (dates : List Timestamp) (values : List String) :
    List Timestamp × List String :=
  ((dictOfPairs (dates.zip values)).map Prod.fst,
   (dictOfPairs (dates.zip values)).map Prod.snd)

/-- `roughen_h2d` (prepper.py:89-91): zero the hour, then deduplicate. -/
def roughen_h2d (dates : List Timestamp) (values : List String) :
    List Timestamp × List String :=
  generic_roughen (dates.map (fun d => d.replaceHour 0)) values

/-- `roughen_d2M` (prepper.py:94-96): set the day to 1, then deduplicate. -/
def roughen_d2M (dates : List Timestamp) (values : List String) :
    List Timestamp × List String :=
  generic_roughen (dates.map (fun d => d.replaceDay 1)) values

/-- `roughen_M2Y` (prepper.py:99-101): set the month to 1, then deduplicate. -/
def roughen_M2Y (dates : List Timestamp) (values : List String) :
    List Timestamp × List String :=
  generic_roughen (dates.map (fun d => d.replaceMonth 1)) values

/-- The character for decimal digit `n % 10`. -/
def digitChar (n : Nat) : Char := Char.ofNat (48 + n % 10)

/-- Two-digit zero-padded decimal rendering (for values below 100). -/
def pad2 (n : Nat) : String := String.mk [digitChar (n / 10), digitChar n]

/-- Four-digit zero-padded decimal rendering (for values below 10000). -/
def pad4 (n : Nat) : String :=
  String.mk [digitChar (n / 1000), digitChar (n / 100), digitChar (n / 10), digitChar n]

/-- `strftime("%Y")` -/
def fmt_Y (t : Timestamp) : String := pad4 t.year

/-- `strftime("%Y-%m")` -/
def fmt_M (t : Timestamp) : String := pad4 t.year ++ "-" ++ pad2 t.month

/-- `strftime("%Y-%m-%d")` -/
def fmt_d (t : Timestamp) : String := pad4 t.year ++ "-" ++ pad2 t.month ++ "-" ++ pad2 t.day

/-- `strftime("%Y-%m-%dT%H")` -/
def fmt_h (t : Timestamp) : String :=
  pad4 t.year ++ "-" ++ pad2 t.month ++ "-" ++ pad2 t.day ++ "T" ++ pad2 t.hour

/-!
In `roughen` each of the four slots is, before string conversion, either
the sentinel `empty_column` object or a pair of real datetime/value lists.
We carry that distinction as an `Option`: `none` models the slot holding
the `empty_column` object.  The source's identity test
`dates_x is not empty_column` is exactly "the slot is `some _`" (the
deep copy of `dates` is always a distinct object), and its equality test
`dates_x == empty_column` coincides valuewise: a list of datetimes can
only equal a list of `''` sentinels when both are empty, i.e. when
`row_amount = 0`, and in that case every branch produces `[]` anyway.
-/

/-- Hourly slot of `roughen` before string conversion (prepper.py:36-39). -/
def slot_h (p : String) (dates : List Timestamp) (values : List String) :
    Option (List Timestamp × List String) :=
  if p = "h" then some (dates, values) else none

/-- Daily slot of `roughen` before string conversion (prepper.py:42-47). -/
def slot_d (p : String) (dates : List Timestamp) (values : List String) :
    Option (List Timestamp × List String) :=
  if p = "d" then some (dates, values)
  else
    match slot_h p dates values with
    | none => none
    | some s => some (roughen_h2d s.1 s.2)

/-- Monthly slot of `roughen` before string conversion (prepper.py:50-55). -/
def slot_M (p : String) (dates : List Timestamp) (values : List String) :
    Option (List Timestamp × List String) :=
  if p = "M" then some (dates, values)
  else
    match slot_d p dates values with
    | none => none
    | some s => some (roughen_d2M s.1 s.2)

/-- Yearly slot of `roughen` before string conversion (prepper.py:58-63). -/
def slot_Y (p : String) (dates : List Timestamp) (values : List String) :
    Option (List Timestamp × List String) :=
  if p = "Y" then some (dates, values)
  else
    match slot_M p dates values with
    | none => none
    | some s => some (roughen_M2Y s.1 s.2)

/-- String conversion of one slot (prepper.py:66-73): a sentinel slot stays
a column of `row_amount` empty strings, a real slot has its dates rendered
by `fmt` and its values passed through. -/
def renderSlot (fmt : Timestamp → String) (n : Nat) :
    Option (List Timestamp × List String) → List String × List String
  | none => (List.replicate n "", List.replicate n "")
  | some s => (s.1.map fmt, s.2)

/-- Right-padding with empty-string sentinels up to length `n`
(prepper.py:76-81); like Python's `(n - len(xs)) * ['']`, a negative count
adds nothing. -/
def padTo (n : Nat) (xs : List String) : List String :=
  xs ++ List.replicate (n - xs.length) ""

/-- The eight sequences returned by `roughen`, as named fields. -/
structure RoughenResult where
  dates_h : List String
  values_h : List String
  dates_d : List String
  values_d : List String
  dates_M : List String
  values_M : List String
  dates_Y : List String
  values_Y : List String
deriving DecidableEq, Repr

/-- `roughen` (prepper.py:20-86): pass the native slot through, derive
each coarser slot from the next finer one, render dates to strings, and
right-pad everything but the hourly slot to the input row count (the
comment in the source notes "h is automatically correct"). -/
def roughen (periodicity : String) (dates : List Timestamp) (values : List String) :
    RoughenResult :=
  let row_amount := dates.length
  let rh := renderSlot fmt_h row_amount (slot_h periodicity dates values)
  let rd := renderSlot fmt_d row_amount (slot_d periodicity dates values)
  let rM := renderSlot fmt_M row_amount (slot_M periodicity dates values)
  let rY := renderSlot fmt_Y row_amount (slot_Y periodicity dates values)
  RoughenResult.mk rh.1 rh.2
    (padTo row_amount rd.1) (padTo row_amount rd.2)
    (padTo row_amount rM.1) (padTo row_amount rM.2)
    (padTo row_amount rY.1) (padTo row_amount rY.2)

/-- Caller-visible state after a call of `roughen`: the source deep-copies
`dates` (prepper.py:31), so the caller's `dates` is never touched, but the
caller's `values` list is aliased by the native daily/monthly/yearly slot
and padded in place by `+=` (prepper.py:77/79/81); the hourly slot is
never padded.  The triple is (returned result, caller's dates after the
call, caller's values after the call). -/
def roughenCall (p : String) (dates : List Timestamp) (values : List String) :
    RoughenResult × List Timestamp × List String :=
  (roughen p dates values, dates,
   if p = "d" ∨ p = "M" ∨ p = "Y" then
     values ++ List.replicate (dates.length - values.length) ""
   else values)

/-!
Characterisation of the Python dict built by `generic_roughen`: keys in
order of first appearance, each holding the value of its last occurrence.
The right-hand sides below are written from the words of the spec, to be
compared with the dict semantics embedded above.
-/

/-- Keys in order of first appearance (spec wording: "order of first
appearance determines output order"). -/
def firstOccurrenceKeys {α : Type} [DecidableEq α] (ks : List α) : List α :=
  ks.foldl (fun acc k => if k ∈ acc then acc else acc ++ [k]) []

/-- The value paired with the last occurrence of key `k` in `ps`
(`dflt` if `k` never occurs). -/
def lastValueFor {α β : Type} [DecidableEq α] (ps : List (α × β)) (k : α) (dflt : β) : β :=
  match ps.reverse.find? (fun p => decide (p.1 = k)) with
  | some p => p.2
  | none => dflt

theorem dictInsert_of_not_mem {α β : Type} [DecidableEq α]
    {acc : List (α × β)} {k : α} (v : β) (h : k ∉ acc.map Prod.fst) :
    dictInsert acc k v = acc ++ [(k, v)] := by
  induction acc with
  | nil => rfl
  | cons p rest ih =>
    simp only [List.map_cons, List.mem_cons] at h
    push_neg at h
    simp [dictInsert, Ne.symm h.1, ih h.2]

theorem dictInsert_graph {α β : Type} [DecidableEq α]
    (K : List α) (g : α → β) (a : α) (v : β) (ha : a ∈ K) (hnd : K.Nodup) :
    dictInsert (K.map fun k => (k, g k)) a v =
      K.map fun k => (k, if k = a then v else g k) := by
  induction K with
  | nil => cases ha
  | cons k0 K' ih =>
    rw [List.nodup_cons] at hnd
    by_cases h0 : k0 = a
    · subst h0
      simp only [List.map_cons, dictInsert, if_pos rfl]
      have : ∀ k ∈ K', (fun k => (k, g k)) k = (fun k => (k, if k = k0 then v else g k)) k := by
        intro k hk
        have : k ≠ k0 := fun he => hnd.1 (he ▸ hk)
        simp [this]
      simp [List.map_congr_left this]
    · have ha' : a ∈ K' := by
        rcases List.mem_cons.mp ha with h | h
        · exact absurd h.symm h0
        · exact h
      simp [dictInsert, h0, ih ha' hnd.2]

theorem dictOfPairs_append {α β : Type} [DecidableEq α] (ps : List (α × β)) (q : α × β) :
    dictOfPairs (ps ++ [q]) = dictInsert (dictOfPairs ps) q.1 q.2 := by
  simp [dictOfPairs, List.foldl_append]

theorem firstOccurrenceKeys_append {α : Type} [DecidableEq α] (ks : List α) (k : α) :
    firstOccurrenceKeys (ks ++ [k]) =
      if k ∈ firstOccurrenceKeys ks then firstOccurrenceKeys ks
      else firstOccurrenceKeys ks ++ [k] := by
  simp [firstOccurrenceKeys, List.foldl_append]

theorem lastValueFor_append {α β : Type} [DecidableEq α]
    (ps : List (α × β)) (q : α × β) (k : α) (dflt : β) :
    lastValueFor (ps ++ [q]) k dflt =
      if q.1 = k then q.2 else lastValueFor ps k dflt := by
  by_cases h : q.1 = k <;>
    simp [lastValueFor, List.reverse_append, List.find?, h]

theorem firstOccurrenceKeys_nodup_aux {α : Type} [DecidableEq α]
    (ks : List α) (acc : List α) (hacc : acc.Nodup) :
    (ks.foldl (fun acc k => if k ∈ acc then acc else acc ++ [k]) acc).Nodup := by
  induction ks generalizing acc with
  | nil => exact hacc
  | cons k ks ih =>
    simp only [List.foldl_cons]
    by_cases h : k ∈ acc
    · simpa [h] using ih acc hacc
    · have : (acc ++ [k]).Nodup := by
        simp [List.nodup_append, hacc, List.disjoint_singleton]
        intro hc
        exact h hc
      simpa [h] using ih (acc ++ [k]) this

theorem firstOccurrenceKeys_nodup {α : Type} [DecidableEq α] (ks : List α) :
    (firstOccurrenceKeys ks).Nodup :=
  firstOccurrenceKeys_nodup_aux ks [] List.nodup_nil

theorem map_fst_map_graph {α β : Type} (K : List α) (g : α → β) :
    (K.map fun k => (k, g k)).map Prod.fst = K := by
  induction K with
  | nil => rfl
  | cons k K ih => simp [ih]

/-- The dict `{d: v for d, v in ps}` lists the keys of `ps` in order of
first appearance, each paired with the value of its last occurrence. -/
theorem dictOfPairs_spec {α β : Type} [DecidableEq α] (dflt : β) (ps : List (α × β)) :
    dictOfPairs ps =
      (firstOccurrenceKeys (ps.map Prod.fst)).map
        (fun k => (k, lastValueFor ps k dflt)) := by
  induction ps using List.reverseRecOn with
  | nil => rfl
  | append_singleton ps q ih =>
    rw [dictOfPairs_append, ih, List.map_append, List.map_singleton,
      firstOccurrenceKeys_append]
    by_cases hm : q.1 ∈ firstOccurrenceKeys (ps.map Prod.fst)
    · rw [if_pos hm,
        dictInsert_graph _ _ _ _ hm (firstOccurrenceKeys_nodup _)]
      apply List.map_congr_left
      intro k _
      by_cases hk : k = q.1
      · simp [hk, lastValueFor_append]
      · have h2 : q.1 ≠ k := fun h => hk h.symm
        simp [lastValueFor_append, h2, hk]
    · rw [if_neg hm,
        dictInsert_of_not_mem q.2 (by rw [map_fst_map_graph]; exact hm),
        List.map_append, List.map_singleton]
      congr 1
      · apply List.map_congr_left
        intro k hk
        have hne : q.1 ≠ k := fun h => hm (h ▸ hk)
        simp [lastValueFor_append, hne]
      · simp [lastValueFor_append]

theorem generic_roughen_fst (dates : List Timestamp) (values : List String) :
    (generic_roughen dates values).1 =
      firstOccurrenceKeys ((dates.zip values).map Prod.fst) := by
  rw [generic_roughen]
  simp only [dictOfPairs_spec ""]
  rw [map_fst_map_graph]

theorem generic_roughen_snd (dates : List Timestamp) (values : List String) :
    (generic_roughen dates values).2 =
      (firstOccurrenceKeys ((dates.zip values).map Prod.fst)).map
        (fun k => lastValueFor (dates.zip values) k "") := by
  rw [generic_roughen]
  simp only [dictOfPairs_spec ""]
  simp [List.map_map, Function.comp]

/-!
Length facts about the dict and the slots, shared by several claims.
-/

theorem dictInsert_length {α β : Type} [DecidableEq α]
    (acc : List (α × β)) (k : α) (v : β) :
    (dictInsert acc k v).length ≤ acc.length + 1 := by
  induction acc with
  | nil => simp [dictInsert]
  | cons p rest ih =>
    by_cases h : p.1 = k
    · simp [dictInsert, h]
    · simpa [dictInsert, h] using ih

theorem dictOfPairs_length_aux {α β : Type} [DecidableEq α]
    (ps : List (α × β)) (acc : List (α × β)) :
    (ps.foldl (fun acc p => dictInsert acc p.1 p.2) acc).length ≤
      acc.length + ps.length := by
  induction ps generalizing acc with
  | nil => simp
  | cons p ps ih =>
    calc (List.foldl (fun acc p => dictInsert acc p.1 p.2) (dictInsert acc p.1 p.2) ps).length
        ≤ (dictInsert acc p.1 p.2).length + ps.length := ih _
      _ ≤ acc.length + 1 + ps.length := by
          exact Nat.add_le_add_right (dictInsert_length acc p.1 p.2) _
      _ = acc.length + (p :: ps).length := by simp only [List.length_cons]; omega

theorem dictOfPairs_length {α β : Type} [DecidableEq α] (ps : List (α × β)) :
    (dictOfPairs ps).length ≤ ps.length := by
  simpa using dictOfPairs_length_aux ps []

theorem generic_roughen_lengths (dates : List Timestamp) (values : List String) :
    (generic_roughen dates values).1.length = (generic_roughen dates values).2.length ∧
      (generic_roughen dates values).1.length ≤ dates.length := by
  constructor
  · simp [generic_roughen]
  · calc (generic_roughen dates values).1.length
        ≤ (dates.zip values).length := by
          simpa [generic_roughen] using dictOfPairs_length (dates.zip values)
      _ ≤ dates.length := by simp [List.length_zip]

theorem padTo_length {n : Nat} {xs : List String} (h : xs.length ≤ n) :
    (padTo n xs).length = n := by
  simp [padTo]
  omega

theorem padTo_of_length_eq {n : Nat} {xs : List String} (h : xs.length = n) :
    padTo n xs = xs := by
  simp [padTo, h]

/-- Invariant of a real slot: date and value lists have equal length,
bounded by the input row count. -/
def slotOk (n : Nat) : Option (List Timestamp × List String) → Prop
  | none => True
  | some s => s.1.length = s.2.length ∧ s.1.length ≤ n

theorem slotOk_roughen_step {n : Nat} {s : List Timestamp × List String}
    (f : Timestamp → Timestamp)
    (h : slotOk n (some s)) :
    slotOk n (some (generic_roughen (s.1.map f) s.2)) := by
  obtain ⟨h1, h2⟩ := h
  obtain ⟨g1, g2⟩ := generic_roughen_lengths (s.1.map f) s.2
  refine ⟨g1, le_trans (le_trans g2 ?_) h2⟩
  simp

theorem slot_h_ok {p : String} {dates : List Timestamp} {values : List String}
    (hlen : dates.length = values.length) :
    slotOk dates.length (slot_h p dates values) := by
  rw [slot_h]
  by_cases h : p = "h" <;> simp [h, slotOk, hlen]

theorem slot_d_ok {p : String} {dates : List Timestamp} {values : List String}
    (hlen : dates.length = values.length) :
    slotOk dates.length (slot_d p dates values) := by
  rw [slot_d]
  by_cases h : p = "d"
  · simp [h, slotOk, hlen]
  · rw [if_neg h]
    have := slot_h_ok (p := p) hlen
    cases hs : slot_h p dates values with
    | none => simp [slotOk]
    | some s =>
      rw [hs] at this
      exact slotOk_roughen_step _ this

theorem slot_M_ok {p : String} {dates : List Timestamp} {values : List String}
    (hlen : dates.length = values.length) :
    slotOk dates.length (slot_M p dates values) := by
  rw [slot_M]
  by_cases h : p = "M"
  · simp [h, slotOk, hlen]
  · rw [if_neg h]
    have := slot_d_ok (p := p) hlen
    cases hs : slot_d p dates values with
    | none => simp [slotOk]
    | some s =>
      rw [hs] at this
      exact slotOk_roughen_step _ this

theorem slot_Y_ok {p : String} {dates : List Timestamp} {values : List String}
    (hlen : dates.length = values.length) :
    slotOk dates.length (slot_Y p dates values) := by
  rw [slot_Y]
  by_cases h : p = "Y"
  · simp [h, slotOk, hlen]
  · rw [if_neg h]
    have := slot_M_ok (p := p) hlen
    cases hs : slot_M p dates values with
    | none => simp [slotOk]
    | some s =>
      rw [hs] at this
      exact slotOk_roughen_step _ this

theorem roughen_fields (p : String) (dates : List Timestamp) (values : List String) :
    roughen p dates values = RoughenResult.mk
      (renderSlot fmt_h dates.length (slot_h p dates values)).1
      (renderSlot fmt_h dates.length (slot_h p dates values)).2
      (padTo dates.length (renderSlot fmt_d dates.length (slot_d p dates values)).1)
      (padTo dates.length (renderSlot fmt_d dates.length (slot_d p dates values)).2)
      (padTo dates.length (renderSlot fmt_M dates.length (slot_M p dates values)).1)
      (padTo dates.length (renderSlot fmt_M dates.length (slot_M p dates values)).2)
      (padTo dates.length (renderSlot fmt_Y dates.length (slot_Y p dates values)).1)
      (padTo dates.length (renderSlot fmt_Y dates.length (slot_Y p dates values)).2) := rfl

theorem padded_render_lengths {n : Nat} (fmt : Timestamp → String)
    {o : Option (List Timestamp × List String)} (h : slotOk n o) :
    (padTo n (renderSlot fmt n o).1).length = n ∧
      (padTo n (renderSlot fmt n o).2).length = n := by
  cases o with
  | none =>
    constructor <;> exact padTo_length (by simp [renderSlot])
  | some s =>
    obtain ⟨h1, h2⟩ := h
    constructor
    · exact padTo_length (by simpa [renderSlot] using h2)
    · exact padTo_length (by simp [renderSlot]; omega)

/-!
The claim theorems.
-/

/-- C1, counterexample: on the finer series
`[(2021-01-01T00, "1"), (2021-01-01T05, "2")]` the hour-to-day truncation
does NOT retain the first-occurrence value `"1"`; the dict comprehension
in `generic_roughen` keeps the value of the last occurrence, `"2"`. -/
theorem roughen_h2d_first_wins_cex :
    roughen_h2d [Timestamp.mk 2021 1 1 0 0 0, Timestamp.mk 2021 1 1 5 0 0] ["1", "2"] =
        ([Timestamp.mk 2021 1 1 0 0 0], ["2"]) ∧
      roughen_h2d [Timestamp.mk 2021 1 1 0 0 0, Timestamp.mk 2021 1 1 5 0 0] ["1", "2"] ≠
        ([Timestamp.mk 2021 1 1 0 0 0], ["1"]) := by
  constructor
  · decide
  · decide

/-- C1 (amended): in every truncation step of `roughen` (each of which
calls `generic_roughen`), when several entries of the finer series
truncate to the same coarser key, the key appears in the coarser series at
the position of its FIRST occurrence in iteration order, but the value
retained is that of the LAST occurrence (later duplicates overwrite the
value); duplicates are never averaged or summed.  Truncating
`[(2021-01-01T00, "1"), (2021-01-01T05, "2")]` to daily yields
`[(2021-01-01, "2")]`. -/
theorem generic_roughen_last_wins (dates : List Timestamp) (values : List String) :
    generic_roughen dates values =
      (firstOccurrenceKeys ((dates.zip values).map Prod.fst),
       (firstOccurrenceKeys ((dates.zip values).map Prod.fst)).map
         (fun k => lastValueFor (dates.zip values) k "")) := by
  rw [show generic_roughen dates values =
      ((generic_roughen dates values).1, (generic_roughen dates values).2) from rfl,
    generic_roughen_fst, generic_roughen_snd]

/-- C2, counterexample: for daily input dates
`[2021-01-01, 2021-01-02, 2021-02-01]` with values
`["1.00", "2.00", "3.00"]` the monthly slot holds `"2.00"` for January
(the last January value), not `"1.00"` as claimed. -/
theorem roughen_daily_example_cex :
    (roughen "d"
        [Timestamp.mk 2021 1 1 0 0 0, Timestamp.mk 2021 1 2 0 0 0, Timestamp.mk 2021 2 1 0 0 0]
        ["1.00", "2.00", "3.00"]).values_M = ["2.00", "3.00", ""] ∧
      (roughen "d"
        [Timestamp.mk 2021 1 1 0 0 0, Timestamp.mk 2021 1 2 0 0 0, Timestamp.mk 2021 2 1 0 0 0]
        ["1.00", "2.00", "3.00"]).values_M ≠ ["1.00", "3.00", ""] := by
  constructor
  · decide
  · decide

/-- C2 (amended): for daily input dates
`[2021-01-01, 2021-01-02, 2021-02-01]` with values
`["1.00", "2.00", "3.00"]`, `roughen` returns: hourly slot entirely empty
(3 empty-string pairs); daily slot equal to the input (dates formatted
`YYYY-MM-DD`); monthly slot `[("2021-01", "2.00"), ("2021-02", "3.00")]`
padded to 3 rows with one empty pair (January keeps the LAST January
value); yearly slot `[("2021", "3.00")]` padded to 3 rows with two empty
pairs (the last value of 2021). -/
theorem roughen_daily_example :
    roughen "d"
        [Timestamp.mk 2021 1 1 0 0 0, Timestamp.mk 2021 1 2 0 0 0, Timestamp.mk 2021 2 1 0 0 0]
        ["1.00", "2.00", "3.00"] =
      RoughenResult.mk
        ["", "", ""] ["", "", ""]
        ["2021-01-01", "2021-01-02", "2021-02-01"] ["1.00", "2.00", "3.00"]
        ["2021-01", "2021-02", ""] ["2.00", "3.00", ""]
        ["2021", "", ""] ["3.00", "", ""] := by
  decide

/-- C5: for every valid input (equal-length dates and values, periodicity
in the four codes), the output slot of `roughen` matching the input
periodicity is the input series verbatim: same length, same order, same
values, dates rendered in that periodicity's canonical string form. -/
theorem roughen_passthrough (p : String) (dates : List Timestamp) (values : List String)
    (hlen : dates.length = values.length) :
    (p = "h" → (roughen p dates values).dates_h = dates.map fmt_h ∧
      (roughen p dates values).values_h = values) ∧
    (p = "d" → (roughen p dates values).dates_d = dates.map fmt_d ∧
      (roughen p dates values).values_d = values) ∧
    (p = "M" → (roughen p dates values).dates_M = dates.map fmt_M ∧
      (roughen p dates values).values_M = values) ∧
    (p = "Y" → (roughen p dates values).dates_Y = dates.map fmt_Y ∧
      (roughen p dates values).values_Y = values) := by
  refine ⟨?_, ?_, ?_, ?_⟩ <;> intro hp <;> subst hp <;> rw [roughen_fields]
  · constructor <;> simp [slot_h, renderSlot]
  · rw [show slot_d "d" dates values = some (dates, values) from by rw [slot_d, if_pos rfl]]
    constructor
    · exact padTo_of_length_eq (by simp [renderSlot])
    · exact padTo_of_length_eq (by simp [renderSlot]; omega)
  · rw [show slot_M "M" dates values = some (dates, values) from by rw [slot_M, if_pos rfl]]
    constructor
    · exact padTo_of_length_eq (by simp [renderSlot])
    · exact padTo_of_length_eq (by simp [renderSlot]; omega)
  · rw [show slot_Y "Y" dates values = some (dates, values) from by rw [slot_Y, if_pos rfl]]
    constructor
    · exact padTo_of_length_eq (by simp [renderSlot])
    · exact padTo_of_length_eq (by simp [renderSlot]; omega)

/-- Witness for C5 at all four periodicities on concrete one-row series. -/
theorem roughen_passthrough_w :
    ((roughen "h" [Timestamp.mk 2021 3 4 5 0 0] ["7"]).dates_h = ["2021-03-04T05"] ∧
      (roughen "h" [Timestamp.mk 2021 3 4 5 0 0] ["7"]).values_h = ["7"]) ∧
    ((roughen "d" [Timestamp.mk 2021 3 4 5 0 0] ["7"]).dates_d = ["2021-03-04"] ∧
      (roughen "d" [Timestamp.mk 2021 3 4 5 0 0] ["7"]).values_d = ["7"]) ∧
    ((roughen "M" [Timestamp.mk 2021 3 4 5 0 0] ["7"]).dates_M = ["2021-03"] ∧
      (roughen "M" [Timestamp.mk 2021 3 4 5 0 0] ["7"]).values_M = ["7"]) ∧
    ((roughen "Y" [Timestamp.mk 2021 3 4 5 0 0] ["7"]).dates_Y = ["2021"] ∧
      (roughen "Y" [Timestamp.mk 2021 3 4 5 0 0] ["7"]).values_Y = ["7"]) := by
  refine ⟨?_, ?_, ?_, ?_⟩
  · have h := (roughen_passthrough "h" [Timestamp.mk 2021 3 4 5 0 0] ["7"] (by decide)).1 rfl
    exact ⟨by rw [h.1]; decide, h.2⟩
  · have h := (roughen_passthrough "d" [Timestamp.mk 2021 3 4 5 0 0] ["7"] (by decide)).2.1 rfl
    exact ⟨by rw [h.1]; decide, h.2⟩
  · have h := (roughen_passthrough "M" [Timestamp.mk 2021 3 4 5 0 0] ["7"] (by decide)).2.2.1 rfl
    exact ⟨by rw [h.1]; decide, h.2⟩
  · have h := (roughen_passthrough "Y" [Timestamp.mk 2021 3 4 5 0 0] ["7"] (by decide)).2.2.2 rfl
    exact ⟨by rw [h.1]; decide, h.2⟩

/-- C6: for equal-length inputs, after padding all eight sequences
returned by `roughen` have the length of the input dates sequence. -/
theorem roughen_all_lengths (p : String) (dates : List Timestamp) (values : List String)
    (hlen : dates.length = values.length) :
    (roughen p dates values).dates_h.length = dates.length ∧
    (roughen p dates values).values_h.length = dates.length ∧
    (roughen p dates values).dates_d.length = dates.length ∧
    (roughen p dates values).values_d.length = dates.length ∧
    (roughen p dates values).dates_M.length = dates.length ∧
    (roughen p dates values).values_M.length = dates.length ∧
    (roughen p dates values).dates_Y.length = dates.length ∧
    (roughen p dates values).values_Y.length = dates.length := by
  rw [roughen_fields]
  have hd := padded_render_lengths fmt_d (slot_d_ok (p := p) hlen)
  have hM := padded_render_lengths fmt_M (slot_M_ok (p := p) hlen)
  have hY := padded_render_lengths fmt_Y (slot_Y_ok (p := p) hlen)
  refine ⟨?_, ?_, hd.1, hd.2, hM.1, hM.2, hY.1, hY.2⟩
  · by_cases h : p = "h" <;> simp [slot_h, h, renderSlot]
  · by_cases h : p = "h"
    · simp [slot_h, h, renderSlot]; omega
    · simp [slot_h, h, renderSlot]

/-- Witness for C6 on a concrete daily two-row series. -/
theorem roughen_all_lengths_w :
    (roughen "d" [Timestamp.mk 2021 1 1 0 0 0, Timestamp.mk 2021 1 2 0 0 0]
        ["1", "2"]).dates_h.length = 2 ∧
    (roughen "d" [Timestamp.mk 2021 1 1 0 0 0, Timestamp.mk 2021 1 2 0 0 0]
        ["1", "2"]).values_Y.length = 2 := by
  have h := roughen_all_lengths "d"
    [Timestamp.mk 2021 1 1 0 0 0, Timestamp.mk 2021 1 2 0 0 0] ["1", "2"] (by decide)
  exact ⟨h.1, h.2.2.2.2.2.2.2⟩

/-- C7: a periodicity outside the four codes makes every branch of
`roughen` fall through to the sentinel column, so all eight returned
sequences are `n` empty strings; being a total function, the embedded
`roughen` returns this without error, as the source does. -/
theorem roughen_unknown_periodicity (p : String) (n : Nat)
    (dates : List Timestamp) (values : List String)
    (hd : dates.length = n) (hv : values.length = n)
    (h1 : p ≠ "h") (h2 : p ≠ "d") (h3 : p ≠ "M") (h4 : p ≠ "Y") :
    roughen p dates values = RoughenResult.mk
      (List.replicate n "") (List.replicate n "") (List.replicate n "")
      (List.replicate n "") (List.replicate n "") (List.replicate n "")
      (List.replicate n "") (List.replicate n "") := by
  subst hd
  have sh : slot_h p dates values = none := by simp [slot_h, h1]
  have sd : slot_d p dates values = none := by simp [slot_d, h2, sh]
  have sM : slot_M p dates values = none := by simp [slot_M, h3, sd]
  have sY : slot_Y p dates values = none := by simp [slot_Y, h4, sM]
  rw [roughen_fields, sh, sd, sM, sY]
  have hp : padTo dates.length (List.replicate dates.length "") =
      List.replicate dates.length "" :=
    padTo_of_length_eq (by simp)
  simp only [renderSlot, hp]

/-- Witness for C7 at the unrecognised periodicity `"x"`. -/
theorem roughen_unknown_periodicity_w :
    roughen "x" [Timestamp.mk 2021 1 1 0 0 0, Timestamp.mk 2021 1 2 0 0 0] ["a", "b"] =
      RoughenResult.mk
        (List.replicate 2 "") (List.replicate 2 "") (List.replicate 2 "")
        (List.replicate 2 "") (List.replicate 2 "") (List.replicate 2 "")
        (List.replicate 2 "") (List.replicate 2 "") :=
  roughen_unknown_periodicity "x" 2
    [Timestamp.mk 2021 1 1 0 0 0, Timestamp.mk 2021 1 2 0 0 0] ["a", "b"]
    (by decide) (by decide) (by decide) (by decide) (by decide) (by decide)

/-- C9: every slot strictly finer than the input periodicity is entirely
sentinel: for yearly input the hourly, daily and monthly slots, for
monthly input the hourly and daily slots, for daily input the hourly
slot.  No error is raised (the embedded function is total, like the
source on these inputs). -/
theorem roughen_finer_slots_empty (p : String)
    (dates : List Timestamp) (values : List String) :
    (p = "Y" →
      (roughen p dates values).dates_h = List.replicate dates.length "" ∧
      (roughen p dates values).values_h = List.replicate dates.length "" ∧
      (roughen p dates values).dates_d = List.replicate dates.length "" ∧
      (roughen p dates values).values_d = List.replicate dates.length "" ∧
      (roughen p dates values).dates_M = List.replicate dates.length "" ∧
      (roughen p dates values).values_M = List.replicate dates.length "") ∧
    (p = "M" →
      (roughen p dates values).dates_h = List.replicate dates.length "" ∧
      (roughen p dates values).values_h = List.replicate dates.length "" ∧
      (roughen p dates values).dates_d = List.replicate dates.length "" ∧
      (roughen p dates values).values_d = List.replicate dates.length "") ∧
    (p = "d" →
      (roughen p dates values).dates_h = List.replicate dates.length "" ∧
      (roughen p dates values).values_h = List.replicate dates.length "") := by
  have hp : padTo dates.length (List.replicate dates.length "") =
      List.replicate dates.length "" :=
    padTo_of_length_eq (by simp)
  refine ⟨?_, ?_, ?_⟩ <;> intro he <;> subst he <;> rw [roughen_fields]
  · have sh : slot_h "Y" dates values = none := by simp [slot_h]
    have sd : slot_d "Y" dates values = none := by simp [slot_d, sh]
    have sM : slot_M "Y" dates values = none := by simp [slot_M, sd]
    rw [sh, sd, sM]
    exact ⟨rfl, rfl, hp, hp, hp, hp⟩
  · have sh : slot_h "M" dates values = none := by simp [slot_h]
    have sd : slot_d "M" dates values = none := by simp [slot_d, sh]
    rw [sh, sd]
    exact ⟨rfl, rfl, hp, hp⟩
  · have sh : slot_h "d" dates values = none := by simp [slot_h]
    rw [sh]
    exact ⟨rfl, rfl⟩

/-- Witness for C9 at the three coarser periodicities on one-row input. -/
theorem roughen_finer_slots_empty_w :
    ((roughen "Y" [Timestamp.mk 2021 1 1 0 0 0] ["v"]).dates_M =
      List.replicate 1 "") ∧
    ((roughen "M" [Timestamp.mk 2021 1 1 0 0 0] ["v"]).dates_d =
      List.replicate 1 "") ∧
    ((roughen "d" [Timestamp.mk 2021 1 1 0 0 0] ["v"]).dates_h =
      List.replicate 1 "") := by
  refine ⟨?_, ?_, ?_⟩
  · exact ((roughen_finer_slots_empty "Y" [Timestamp.mk 2021 1 1 0 0 0] ["v"]).1
      rfl).2.2.2.2.1
  · exact ((roughen_finer_slots_empty "M" [Timestamp.mk 2021 1 1 0 0 0] ["v"]).2.1
      rfl).2.2.1
  · exact ((roughen_finer_slots_empty "d" [Timestamp.mk 2021 1 1 0 0 0] ["v"]).2.2
      rfl).1

/-- C10: on contract inputs (equal-length sequences) `roughen` behaves as
a pure function: the caller's `dates` and `values` lists are unchanged by
the call (`dates` is deep-copied; the in-place `+=` padding of the
aliased `values` appends nothing when the lengths agree), and a second
call on the caller's post-call state returns the identical result. -/
theorem roughen_pure (p : String) (dates : List Timestamp) (values : List String)
    (hlen : dates.length = values.length) :
    (roughenCall p dates values).2.1 = dates ∧
    (roughenCall p dates values).2.2 = values ∧
    roughenCall p (roughenCall p dates values).2.1 (roughenCall p dates values).2.2 =
      roughenCall p dates values := by
  have hv : (roughenCall p dates values).2.2 = values := by
    rw [roughenCall]
    by_cases h : p = "d" ∨ p = "M" ∨ p = "Y" <;> simp [h, hlen]
  refine ⟨rfl, hv, ?_⟩
  rw [show (roughenCall p dates values).2.1 = dates from rfl, hv]

/-!
The loader/normaliser (`normalise`, prepper.py:110-183).  The CSV layer
is embedded as an in-memory table: the header row's field names plus the
data rows (each a list of cells).  `csv.DictReader` turns each data row
into a Python dict keyed by the field names; we reuse `dictOfPairs` for
that.  Number parsing is embedded for the plain decimal forms the file
format carries (sign, digits, one optional point); Python's `float` also
accepts exponents, infinities and surrounding whitespace, which never
parse as anything else here, and `f-string` `:.2f` rounding is done in
exact decimal arithmetic (half-to-even), abstracting from the binary
double representation.  Output files are modelled as (name, rows) pairs;
on an error the source raises (possibly leaving earlier files on disk),
modelled as `Except.error` — claims about error cases only concern date
parsing, which in the source happens before any file is written.
-/

/-- First-found value for a key in an association list. -/
def assocFind {α β : Type} [DecidableEq α] (k : α) : List (α × β) → Option β
  | [] => none
  | p :: rest => if p.1 = k then some p.2 else assocFind k rest

/-- Whether every character is an ASCII digit; Python's `str.isnumeric`
is broader (Unicode numerics) but coincides on the data this program
reads. -/
def allDigits (cs : List Char) : Bool := cs.all Char.isDigit

/-- Decimal value of a digit character. -/
def dval (c : Char) : Nat := c.toNat - 48

/-- Value of a digit string (left-to-right accumulation, as `int` does). -/
def digitsToNat (cs : List Char) : Nat :=
  cs.foldl (fun acc c => acc * 10 + dval c) 0

/-- `int(s)` on the forms that occur here: optional sign then digits. -/
def parsePyInt (s : String) : Option Int :=
  match s.data with
  | '-' :: rest =>
    if rest ≠ [] ∧ allDigits rest then some (-(digitsToNat rest : Int)) else none
  | '+' :: rest =>
    if rest ≠ [] ∧ allDigits rest then some (digitsToNat rest : Int) else none
  | cs => if cs ≠ [] ∧ allDigits cs then some (digitsToNat cs : Int) else none

/-- `float(s)` on plain decimal literals: optional sign, digits with at
most one point, at least one digit.  The result is (negative?, numerator,
number of decimal places): the value is `numerator / 10 ^ places`. -/
def parseFloat (s : String) : Option (Bool × Nat × Nat) :=
  let signed : Bool × List Char :=
    match s.data with
    | '-' :: rest => (true, rest)
    | '+' :: rest => (false, rest)
    | cs => (false, cs)
  let ip := signed.2.takeWhile (fun c => c != '.')
  match signed.2.dropWhile (fun c => c != '.') with
  | [] =>
    if ip ≠ [] ∧ allDigits ip then some (signed.1, digitsToNat ip, 0) else none
  | _ :: fp =>
    if (ip ≠ [] ∨ fp ≠ []) ∧ allDigits ip ∧ allDigits fp then
      some (signed.1, digitsToNat ip * 10 ^ fp.length + digitsToNat fp, fp.length)
    else none

/-- `num / den` rounded to the nearest integer, ties to even. -/
def roundHalfEven (num den : Nat) : Nat :=
  if 2 * (num % den) > den then num / den + 1
  else if 2 * (num % den) < den then num / den
  else num / den + num / den % 2

/-- `f"{x:.2f}"` for the decimal value `(neg, num, scale)`, rounding
half-to-even in exact decimal arithmetic. -/
def fmt2 (neg : Bool) (num : Nat) (scale : Nat) : String :=
  (if neg then "-" else "") ++
    toString (roundHalfEven (num * 100) (10 ^ scale) / 100) ++
    "." ++ pad2 (roundHalfEven (num * 100) (10 ^ scale) % 100)

/-- One cell of the value-normalisation comprehension (prepper.py:168):
the empty cell becomes the string `'0'`, any other cell is parsed as a
float and rendered with two decimal places; an unparsable cell raises. -/
def cellNorm (x : String) : Except Unit String :=
  if x = "" then .ok "0"
  else
    match parseFloat x with
    | some v => .ok (fmt2 v.1 v.2.1 v.2.2)
    | none => .error ()

/-- Python `str.split(sep)` for a one-character separator, at the
character level. -/
def splitChar (sep : Char) : List Char → List (List Char)
  | [] => [[]]
  | a :: rest =>
    let r := splitChar sep rest
    if a = sep then [] :: r else (a :: r.headD []) :: r.tail

/-- `s.split(sep)` as a list of strings. -/
def splitOnChar (s : String) (sep : Char) : List String :=
  (splitChar sep s.data).map String.mk

/-- `x.split(' ', 1)[0]` (prepper.py:165): the text before the first
space, the whole string if there is none. -/
def stripUnit (x : String) : String := ((splitOnChar x ' ').headD "")

/-- Whether a year is a Gregorian leap year. -/
def isLeap (y : Nat) : Bool := y % 4 == 0 && (y % 100 != 0 || y % 400 == 0)

/-- Days in a month, as `datetime` validates them. -/
def daysInMonth (y m : Nat) : Nat :=
  if m = 2 then (if isLeap y then 29 else 28)
  else if m = 4 ∨ m = 6 ∨ m = 9 ∨ m = 11 then 30
  else 31

/-- Time-of-day part of `datetime.fromisoformat`: empty, or one separator
character then `HH`, optionally `:MM`, optionally `:SS`, optionally a
`.fff`/`.ffffff` fraction (the fraction is validated and dropped; our
timestamps carry no microseconds because `normalise` zeroes them).
Timezone offsets are outside the embedded grammar. -/
def parseTimePart : List Char → Option (Nat × Nat × Nat)
  | [] => some (0, 0, 0)
  | _ :: h1 :: h2 :: rest =>
    if h1.isDigit && h2.isDigit then
      let hh := dval h1 * 10 + dval h2
      if hh ≤ 23 then
        match rest with
        | [] => some (hh, 0, 0)
        | ':' :: n1 :: n2 :: rest2 =>
          if n1.isDigit && n2.isDigit then
            let mi := dval n1 * 10 + dval n2
            if mi ≤ 59 then
              match rest2 with
              | [] => some (hh, mi, 0)
              | ':' :: s1 :: s2 :: rest3 =>
                if s1.isDigit && s2.isDigit then
                  let ss := dval s1 * 10 + dval s2
                  if ss ≤ 59 then
                    match rest3 with
                    | [] => some (hh, mi, ss)
                    | '.' :: ds =>
                      if (ds.length == 3 || ds.length == 6) && allDigits ds then
                        some (hh, mi, ss)
                      else none
                    | _ => none
                  else none
                else none
              | _ => none
            else none
          else none
        | _ => none
      else none
    else none
  | _ => none

/-- `datetime.fromisoformat` on the pre-3.11 grammar
`YYYY-MM-DD[*HH[:MM[:SS[.fff[fff]]]]]`, with calendar validation as
`datetime` performs it. -/
def fromisoformat (s : String) : Option Timestamp :=
  match s.data with
  | y1 :: y2 :: y3 :: y4 :: '-' :: m1 :: m2 :: '-' :: d1 :: d2 :: rest =>
    if y1.isDigit && y2.isDigit && y3.isDigit && y4.isDigit
        && m1.isDigit && m2.isDigit && d1.isDigit && d2.isDigit then
      let y := dval y1 * 1000 + dval y2 * 100 + dval y3 * 10 + dval y4
      let mo := dval m1 * 10 + dval m2
      let da := dval d1 * 10 + dval d2
      if 1 ≤ y ∧ 1 ≤ mo ∧ mo ≤ 12 ∧ 1 ≤ da ∧ da ≤ daysInMonth y mo then
        match parseTimePart rest with
        | some hms => some (Timestamp.mk y mo da hms.1 hms.2.1 hms.2.2)
        | none => none
      else none
    else none
  | _ => none

/-- Year-only fallback (prepper.py:141): `datetime(int(d), 1, 1)` — the
cell read as an integer year, month and day set to 1; fails if the cell
is not an integer or the year is outside `datetime`'s range. -/
def parseYear4 (d : String) : Except Unit Timestamp :=
  match parsePyInt d with
  | some y =>
    if 1 ≤ y ∧ y ≤ 9999 then .ok (Timestamp.mk y.toNat 1 1 0 0 0) else .error ()
  | none => .error ()

/-- Year-month fallback (prepper.py:142-144): split on `-` into exactly
two parts, read both as integers, day set to 1; fails on any other shape
or an invalid month/year. -/
def parseYearMonth7 (d : String) : Except Unit Timestamp :=
  match splitOnChar d '-' with
  | [ys, ms] =>
    match parsePyInt ys, parsePyInt ms with
    | some y, some m =>
      if 1 ≤ y ∧ y ≤ 9999 ∧ 1 ≤ m ∧ m ≤ 12 then
        .ok (Timestamp.mk y.toNat m.toNat 1 0 0 0)
      else .error ()
    | _, _ => .error ()
  | _ => .error ()

/-- One date cell (prepper.py:134-146): try the full ISO form first
(zeroing minute, second and microsecond on success), else fall back by
cell length to year-only or year-month, else raise `ValueError`. -/
def parseDateCell (d : String) : Except Unit Timestamp :=
  match fromisoformat d with
  | some t => .ok (Timestamp.mk t.year t.month t.day t.hour 0 0)
  | none =>
    if d.length = 4 then parseYear4 d
    else if d.length = 7 then parseYearMonth7 d
    else .error ()

/-- The whole date column, left to right; the first failing cell aborts. -/
def parseDates : List String → Except Unit (List Timestamp)
  | [] => .ok []
  | d :: rest =>
    match parseDateCell d with
    | .ok t => (parseDates rest).map (fun ts => t :: ts)
    | .error e => .error e

/-- One output file: name and the rows written to it. -/
structure OutFile where
  name : String
  rows : List (List String)
deriving DecidableEq, Repr

/-- `row[header]` for a `csv.DictReader` row: the row dict maps each
field name to the cell in its column, a duplicated field name keeping the
last column's cell.  The default for a missing key stands in for the
`KeyError`/`None` cases, which the claims never reach. -/
def rowGet (fieldnames : List String) (row : List String) (h : String) : String :=
  (assocFind h (dictOfPairs (fieldnames.zip row))).getD ""

/-- The per-header column of all data rows after the first
(prepper.py:118-126: the first data row only sets `headers` and is
skipped by `continue`). -/
def columnOf (fieldnames : List String) (rows : List (List String)) (h : String) :
    List String :=
  rows.map (fun row => rowGet fieldnames row h)

/-- The retained headers (prepper.py:120-121): keys of the first data
row's dict — i.e. the field names, first occurrence only — that start
with `T_` or `TAG_`. -/
def headersOf (fieldnames : List String) : List String :=
  (firstOccurrenceKeys fieldnames).filter
    (fun h => decide (h.take 2 = "T_") || decide (h.take 4 = "TAG_"))

/-- The date label (prepper.py:130): the first retained header that
starts with `T_`. -/
def datelabelOf (fieldnames : List String) : Option String :=
  (headersOf fieldnames).find? (fun k => decide (k.take 2 = "T_"))

/-- Zero-padded six-digit row count, `f"{n:06}"`. -/
def pad6 (n : Nat) : String :=
  String.mk (List.replicate (6 - (toString n).length) '0') ++ toString n

/-- The output header row (prepper.py:173-174). -/
def headerRow (u : String) : List String :=
  ["h_date", "h_" ++ u, "d_date", "d_" ++ u, "M_date", "M_" ++ u, "Y_date", "Y_" ++ u]

/-- `zip(*new_data_cols)` over the eight columns: rows as long as the
shortest column. -/
def zip8 : List String → List String → List String → List String →
    List String → List String → List String → List String → List (List String)
  | a :: as, b :: bs, c :: cs, d :: ds, e :: es, f :: fs, g :: gs, i :: js =>
    [a, b, c, d, e, f, g, i] :: zip8 as bs cs ds es fs gs js
  | _, _, _, _, _, _, _, _ => []

/-- The body rows of one output file (prepper.py:175-177). -/
def interleave8 (r : RoughenResult) : List (List String) :=
  zip8 r.dates_h r.values_h r.dates_d r.values_d r.dates_M r.values_M r.dates_Y r.values_Y

/-- Unit sniffing and value normalisation for one data column
(prepper.py:155-168), returning the unit label and the normalised cells:
inspect the second remaining cell; if it is nonempty and does not end in
a digit, split it at the first space into a numeric part (which must
parse as a float) and the unit, and strip the unit from every cell; then
coerce every cell via `cellNorm`.  A column with fewer than two cells
hits `column[1]` and raises, as does a cell that fails float parsing. -/
def processColumn (column : List String) : Except Unit (String × List String) :=
  match column.get? 1 with
  | none => .error ()
  | some c1 =>
    if c1.length > 0 ∧ ¬ c1.back.isDigit then
      match splitOnChar c1 ' ' with
      | t :: u :: us =>
        match parseFloat t with
        | some _ =>
          (List.mapM cellNorm (column.map stripUnit)).map
            (fun col => (String.intercalate " " (u :: us), col))
        | none => .error ()
      | _ => .error ()
    else
      (List.mapM cellNorm column).map (fun col => ("_", col))

/-- The per-column loop of `normalise` (prepper.py:151-183): walk the
retained headers in order, process each `TAG_` column, roughen it against
the parsed dates, and emit one file named
`<row count, zero-padded to 6>__<tag>.csv` holding the header row and the
interleaved eight columns. -/
def processHeaders (fieldnames : List String) (rest : List (List String))
    (periodicity : String) (object_dates : List Timestamp) (row_amount : Nat) :
    List String → Except Unit (List OutFile)
  | [] => .ok []
  | h :: hs =>
    if h.take 4 = "TAG_" then
      match processColumn (columnOf fieldnames rest h) with
      | .error e => .error e
      | .ok pr =>
        match processHeaders fieldnames rest periodicity object_dates row_amount hs with
        | .error e => .error e
        | .ok files =>
          .ok (OutFile.mk (pad6 row_amount ++ "__" ++ h.drop 4 ++ ".csv")
                (headerRow pr.1 :: interleave8 (roughen periodicity object_dates pr.2))
              :: files)
    else processHeaders fieldnames rest periodicity object_dates row_amount hs

/-- `normalise` (prepper.py:110-183) on the in-memory table: the first
data row only fixes the headers (its cells are never read — the dict keys
equal the field names), the date column of the remaining rows is parsed,
and every `TAG_` column becomes one output file.  An empty data section
leaves `headers = None` and crashes on `raw_data.keys()`; a missing `T_`
header crashes on `[0]`; both are error outcomes. -/
def normalise (fieldnames : List String) (dataRows : List (List String)) :
    Except Unit (List OutFile) :=
  match dataRows with
  | [] => .error ()
  | _ :: rest =>
    match datelabelOf fieldnames with
    | none => .error ()
    | some datelabel =>
      match parseDates (columnOf fieldnames rest datelabel) with
      | .error e => .error e
      | .ok object_dates =>
        processHeaders fieldnames rest ((splitOnChar datelabel '_').getLastD "")
          object_dates object_dates.length (headersOf fieldnames)

/-- Witness for C10 on a concrete daily series. -/
theorem roughen_pure_w :
    (roughenCall "d" [Timestamp.mk 2021 1 1 0 0 0] ["1"]).2.1 =
        [Timestamp.mk 2021 1 1 0 0 0] ∧
    (roughenCall "d" [Timestamp.mk 2021 1 1 0 0 0] ["1"]).2.2 = ["1"] ∧
    roughenCall "d" (roughenCall "d" [Timestamp.mk 2021 1 1 0 0 0] ["1"]).2.1
        (roughenCall "d" [Timestamp.mk 2021 1 1 0 0 0] ["1"]).2.2 =
      roughenCall "d" [Timestamp.mk 2021 1 1 0 0 0] ["1"] :=
  roughen_pure "d" [Timestamp.mk 2021 1 1 0 0 0] ["1"] (by decide)

/-!
Support lemmas for the loader claims.
-/

theorem normalise_cons (fieldnames : List String) (r : List String)
    (rows : List (List String)) :
    normalise fieldnames (r :: rows) =
      match datelabelOf fieldnames with
      | none => .error ()
      | some datelabel =>
        match parseDates (columnOf fieldnames rows datelabel) with
        | .error e => .error e
        | .ok object_dates =>
          processHeaders fieldnames rows ((splitOnChar datelabel '_').getLastD "")
            object_dates object_dates.length (headersOf fieldnames) := rfl

theorem parseDates_length {cells : List String} {ts : List Timestamp}
    (h : parseDates cells = .ok ts) : ts.length = cells.length := by
  induction cells generalizing ts with
  | nil =>
    rw [parseDates] at h
    cases h
    rfl
  | cons d rest ih =>
    rw [parseDates] at h
    cases hdc : parseDateCell d with
    | error e => rw [hdc] at h; cases h
    | ok t =>
      rw [hdc] at h
      cases hr : parseDates rest with
      | error e => rw [hr] at h; cases h
      | ok ts' =>
        rw [hr] at h
        cases h
        simp [ih hr]

theorem parseDates_error_of_mem {cells : List String} {d : String}
    (hmem : d ∈ cells) (herr : parseDateCell d = .error ()) :
    parseDates cells = .error () := by
  induction cells with
  | nil => cases hmem
  | cons c rest ih =>
    rw [parseDates]
    rcases List.mem_cons.mp hmem with he | hm
    · subst he
      rw [herr]
    · cases hc : parseDateCell c with
      | error e =>
        cases e
        rfl
      | ok t =>
        rw [ih hm]
        rfl

theorem processHeaders_names (fieldnames : List String) (rest : List (List String))
    (p : String) (ds : List Timestamp) (n : Nat) :
    ∀ hs files, processHeaders fieldnames rest p ds n hs = .ok files →
      ∀ f ∈ files, ∃ hdr : String, f.name = pad6 n ++ "__" ++ hdr.drop 4 ++ ".csv" := by
  intro hs
  induction hs with
  | nil =>
    intro files hok f hf
    rw [processHeaders] at hok
    cases hok
    cases hf
  | cons h hs ih =>
    intro files hok f hf
    rw [processHeaders] at hok
    by_cases htag : h.take 4 = "TAG_"
    · rw [if_pos htag] at hok
      cases hpc : processColumn (columnOf fieldnames rest h) with
      | error e => rw [hpc] at hok; cases hok
      | ok pr =>
        rw [hpc] at hok
        cases hph : processHeaders fieldnames rest p ds n hs with
        | error e => rw [hph] at hok; cases hok
        | ok files' =>
          rw [hph] at hok
          cases hok
          rcases List.mem_cons.mp hf with he | hm
          · exact ⟨h, by rw [he]⟩
          · exact ih files' hph f hm
    · rw [if_neg htag] at hok
      exact ih files hok f hf

/-- C3: the first data row after the header row is discarded by
`normalise`: the output is invariant under replacing that row, and the
row count encoded (zero-padded to six digits) in every output filename is
the number of data rows minus one. -/
theorem normalise_first_row_discarded (fieldnames : List String)
    (r r' : List String) (rows : List (List String)) :
    normalise fieldnames (r :: rows) = normalise fieldnames (r' :: rows) ∧
    ∀ files, normalise fieldnames (r :: rows) = .ok files →
      ∀ f ∈ files, ∃ tag, f.name = pad6 rows.length ++ "__" ++ tag ++ ".csv" := by
  constructor
  · rfl
  · intro files hok f hf
    rw [normalise_cons] at hok
    split at hok
    · cases hok
    · rename_i dl hdl
      split at hok
      · cases hok
      · rename_i ds hpd
        have hlen : ds.length = rows.length := by
          have := parseDates_length hpd
          simpa [columnOf] using this
        obtain ⟨hdr, hname⟩ :=
          processHeaders_names fieldnames rows ((splitOnChar dl '_').getLastD "")
            ds ds.length (headersOf fieldnames) files hok f hf
        exact ⟨hdr.drop 4, by rw [hname, hlen]⟩

/-- Witness for C3: a two-data-row daily table (three data rows in the
file, one discarded), with the first data row replaced by junk. -/
theorem normalise_first_row_discarded_w :
    ∃ tag,
      (OutFile.mk "000002__a.csv"
        [["h_date", "h__", "d_date", "d__", "M_date", "M__", "Y_date", "Y__"],
         ["", "", "2021-01-01", "1.00", "2021-01", "2.00", "2021", "2.00"],
         ["", "", "2021-01-02", "2.00", "", "", "", ""]]).name =
      pad6 2 ++ "__" ++ tag ++ ".csv" := by
  refine (normalise_first_row_discarded ["T_x_d", "TAG_a"] ["x", "y"] ["a", "b"]
      [["2021-01-01", "1"], ["2021-01-02", "2"]]).2
      [OutFile.mk "000002__a.csv"
        [["h_date", "h__", "d_date", "d__", "M_date", "M__", "Y_date", "Y__"],
         ["", "", "2021-01-01", "1.00", "2021-01", "2.00", "2021", "2.00"],
         ["", "", "2021-01-02", "2.00", "", "", "", ""]]] ?_ _ ?_
  · rfl
  · simp

/-- C4, counterexample: the empty cell is coerced to the plain string
`"0"`, not to the two-decimal form `"0.00"` the claim states. -/
theorem cellNorm_empty_cex :
    cellNorm "" = .ok "0" ∧ (Except.ok "0" : Except Unit String) ≠ .ok "0.00" := by
  constructor
  · rfl
  · simp

theorem digitChar_isDigit (n : Nat) : (digitChar n).isDigit = true := by
  rw [digitChar]
  have h : n % 10 < 10 := Nat.mod_lt _ (by norm_num)
  set k := n % 10 with hk
  interval_cases k <;> decide

theorem fmt2_shape (neg : Bool) (num scale : Nat) :
    ∃ pre c1 c2, fmt2 neg num scale = pre ++ "." ++ String.mk [c1, c2] ∧
      c1.isDigit = true ∧ c2.isDigit = true := by
  refine ⟨(if neg then "-" else "") ++
      toString (roundHalfEven (num * 100) (10 ^ scale) / 100),
    digitChar (roundHalfEven (num * 100) (10 ^ scale) % 100 / 10),
    digitChar (roundHalfEven (num * 100) (10 ^ scale) % 100),
    ?_, digitChar_isDigit _, digitChar_isDigit _⟩
  rw [fmt2]
  rfl

/-- C4 (amended): during value normalisation every empty data cell `""`
is coerced to the string `"0"` (with no decimal places), and every
non-empty cell whose value parses as a number is rendered with exactly
two digits after the decimal point. -/
theorem cellNorm_spec (x : String) :
    (x = "" → cellNorm x = .ok "0") ∧
    (∀ neg num scale, x ≠ "" → parseFloat x = some (neg, num, scale) →
      ∃ pre c1 c2, cellNorm x = .ok (pre ++ "." ++ String.mk [c1, c2]) ∧
        c1.isDigit = true ∧ c2.isDigit = true) := by
  constructor
  · intro h
    rw [cellNorm, if_pos h]
  · intro neg num scale hne hp
    have hcx : cellNorm x = .ok (fmt2 neg num scale) := by
      simp [cellNorm, hne, hp]
    obtain ⟨pre, c1, c2, heq, h1, h2⟩ := fmt2_shape neg num scale
    exact ⟨pre, c1, c2, by rw [hcx, heq], h1, h2⟩

/-- Witness for C4 on the empty cell and on `"2.5"`. -/
theorem cellNorm_spec_w :
    cellNorm "" = .ok "0" ∧
    ∃ pre c1 c2, cellNorm "2.5" = .ok (pre ++ "." ++ String.mk [c1, c2]) ∧
      c1.isDigit = true ∧ c2.isDigit = true := by
  constructor
  · exact (cellNorm_spec "").1 rfl
  · exact (cellNorm_spec "2.5").2 false 25 1 (by decide) (by decide)

/-- C8: `normalise` tries full ISO resolution on each date cell first
(then zeroes minute, second and microsecond); on failure, a 4-character
cell is read as year-only (month and day set to 1), a 7-character cell as
year-month (day set to 1), and any other length raises a value error;
a failing cell anywhere in the date column makes the whole file fail with
no output. -/
theorem parseDate_fallback_spec (d : String) :
    (∀ t, fromisoformat d = some t →
      parseDateCell d = .ok (Timestamp.mk t.year t.month t.day t.hour 0 0)) ∧
    (fromisoformat d = none → d.length = 4 → parseDateCell d = parseYear4 d) ∧
    (fromisoformat d = none → d.length = 7 → parseDateCell d = parseYearMonth7 d) ∧
    (fromisoformat d = none → d.length ≠ 4 → d.length ≠ 7 →
      parseDateCell d = .error ()) ∧
    (∀ cells, d ∈ cells → parseDateCell d = .error () →
      parseDates cells = .error ()) ∧
    (∀ fieldnames r rows dl files, datelabelOf fieldnames = some dl →
      d ∈ columnOf fieldnames rows dl → parseDateCell d = .error () →
      normalise fieldnames (r :: rows) ≠ .ok files) := by
  refine ⟨?_, ?_, ?_, ?_, ?_, ?_⟩
  · intro t h
    rw [parseDateCell, h]
  · intro h h4
    rw [parseDateCell, h, if_pos h4]
  · intro h h7
    rw [parseDateCell, h, if_neg (by omega), if_pos h7]
  · intro h h4 h7
    rw [parseDateCell, h, if_neg h4, if_neg h7]
  · intro cells hmem herr
    exact parseDates_error_of_mem hmem herr
  · intro fieldnames r rows dl files hdl hmem herr
    rw [normalise_cons]
    intro hc
    split at hc
    · cases hc
    · rename_i dl2 hdl2
      rw [hdl] at hdl2
      cases hdl2
      rw [parseDates_error_of_mem hmem herr] at hc
      cases hc

/-- Witness for C8: full-ISO, year-only, year-month, bad-length and
whole-file cases at concrete cells. -/
theorem parseDate_fallback_spec_w :
    parseDateCell "2021-01-01" = .ok (Timestamp.mk 2021 1 1 0 0 0) ∧
    parseDateCell "2021" = parseYear4 "2021" ∧
    parseDateCell "2021-05" = parseYearMonth7 "2021-05" ∧
    parseDateCell "x" = .error () ∧
    parseDates ["x"] = .error () ∧
    normalise ["T_x_d"] [["j"], ["x"]] ≠ .ok [] := by
  refine ⟨?_, ?_, ?_, ?_, ?_, ?_⟩
  · exact (parseDate_fallback_spec "2021-01-01").1 (Timestamp.mk 2021 1 1 0 0 0) rfl
  · exact (parseDate_fallback_spec "2021").2.1 rfl rfl
  · exact (parseDate_fallback_spec "2021-05").2.2.1 rfl rfl
  · exact (parseDate_fallback_spec "x").2.2.2.1 rfl (by decide) (by decide)
  · exact (parseDate_fallback_spec "x").2.2.2.2.1 ["x"] (by decide) rfl
  · exact (parseDate_fallback_spec "x").2.2.2.2.2 ["T_x_d"] ["j"] [["x"]] "T_x_d" []
      rfl (by decide) rfl

end Prepper

